import Mathlib

/-!
Verification of the rslicer weight-estimation core (src/main.rs, src/api.rs).

The three core functions `calculate_volume`, `scale_volume` and
`calculate_weight` operate on Rust `f64` values; we embed them over exact
rationals (`ℚ`), the idealised real semantics the specification reasons in.
The IEEE NaN value, which matters for the infill validation in the two call
paths, is modelled separately by `Option ℚ` with `none` playing NaN.

A mesh (`stl_io::IndexedMesh`) is a vertex list plus a list of index triples.
Out-of-range vertex access panics in Rust; we use `List.getD` with a default
vertex, and state theorems under the in-bounds invariant of the spec (§3).
-/

/-- One vertex of the mesh: a 3-component rational coordinate
(the Rust code promotes each `f32` component to `f64`). -/
structure Vertex where
  x : ℚ
  y : ℚ
  z : ℚ
deriving DecidableEq, Repr

/-- One triangular face: a triple of indices into the vertex sequence,
mirroring `face.vertices[0]`, `face.vertices[1]`, `face.vertices[2]`. -/
structure Face where
  i0 : Nat
  i1 : Nat
  i2 : Nat
deriving DecidableEq, Repr

/-- The mesh data model of `stl_io::IndexedMesh` as used by the program:
an ordered vertex sequence and an ordered face sequence. -/
structure IndexedMesh where
  vertices : List Vertex
  faces : List Face
deriving DecidableEq, Repr

/-- Vertex lookup `mesh.vertices[i]`; out-of-range indices give a default
vertex (the Rust code would panic there, so theorems assume in-bounds). -/
def getV (m : IndexedMesh) (i : Nat) : Vertex :=
  m.vertices.getD i ⟨0, 0, 0⟩

/-- §3 invariant: every face index is within bounds of the vertex sequence. -/
def FacesInBounds (m : IndexedMesh) : Prop :=
  ∀ f ∈ m.faces, f.i0 < m.vertices.length ∧ f.i1 < m.vertices.length ∧
    f.i2 < m.vertices.length

instance (m : IndexedMesh) : Decidable (FacesInBounds m) :=
  List.decidableBAll _ m.faces

/-- The signed tetrahedron volume accumulated for one face in
`calculate_volume` (src/main.rs lines 26-33): the six products
`v321, v231, v312, v132, v213, v123` combined with weight 1/6. -/
def signedVol (v0 v1 v2 : Vertex) : ℚ :=
  let v321 := v2.x * v1.y * v0.z
  let v231 := v1.x * v2.y * v0.z
  let v312 := v2.x * v0.y * v1.z
  let v132 := v0.x * v2.y * v1.z
  let v213 := v1.x * v0.y * v2.z
  let v123 := v0.x * v1.y * v2.z
  (1 / 6) * (-v321 + v231 + v312 - v132 - v213 + v123)

/-- `calculate_volume` (src/main.rs lines 15-36): fold the per-face signed
volume over the faces in order, starting from 0, then take `abs`. -/
def calculate_volume (m : IndexedMesh) : ℚ :=
  |m.faces.foldl
    (fun acc f => acc + signedVol (getV m f.i0) (getV m f.i1) (getV m f.i2))
    0|

/-- `f64::MAX`, the initial value of the bounding-box minima in
`scale_volume` (src/main.rs lines 40-42). -/
def fMAX : ℚ := 2 ^ 1024 - 2 ^ 971

/-- `f64::MIN`, the initial value of the bounding-box maxima in
`scale_volume` (src/main.rs lines 43-45). -/
def fMIN : ℚ := -(2 ^ 1024 - 2 ^ 971)

/-- The six running bounding-box accumulators of the loop in `scale_volume`
(src/main.rs lines 40-58). -/
structure BBox where
  minX : ℚ
  minY : ℚ
  minZ : ℚ
  maxX : ℚ
  maxY : ℚ
  maxZ : ℚ
deriving DecidableEq, Repr

/-- One iteration of the bounding-box loop (src/main.rs lines 47-58). -/
def bboxStep (b : BBox) (v : Vertex) : BBox :=
  ⟨min b.minX v.x, min b.minY v.y, min b.minZ v.z,
   max b.maxX v.x, max b.maxY v.y, max b.maxZ v.z⟩

/-- The bounding box computed by `scale_volume`: the loop over all vertices
starting from the `f64::MAX` / `f64::MIN` sentinels. -/
def bbox (m : IndexedMesh) : BBox :=
  m.vertices.foldl bboxStep ⟨fMAX, fMAX, fMAX, fMIN, fMIN, fMIN⟩

/-- `current_x = max_x - min_x` (src/main.rs line 61). -/
def currentX (m : IndexedMesh) : ℚ := (bbox m).maxX - (bbox m).minX

/-- `current_y = max_y - min_y` (src/main.rs line 62). -/
def currentY (m : IndexedMesh) : ℚ := (bbox m).maxY - (bbox m).minY

/-- `current_z = max_z - min_z` (src/main.rs line 63). -/
def currentZ (m : IndexedMesh) : ℚ := (bbox m).maxZ - (bbox m).minZ

/-- `scale_volume` (src/main.rs lines 38-73): per-axis scale factors
`desired / current`, combined multiplicatively, applied to the volume. -/
def scale_volume (original_volume desired_x desired_y desired_z : ℚ)
    (m : IndexedMesh) : ℚ :=
  let scale_x := desired_x / currentX m
  let scale_y := desired_y / currentY m
  let scale_z := desired_z / currentZ m
  let volume_scale := scale_x * scale_y * scale_z
  original_volume * volume_scale

/-- `calculate_weight` (src/main.rs lines 75-90): mm³→cm³ conversion, the
fixed shell/solid-layer constants, effective volume, times density. -/
def calculate_weight (volume_mm3 infill_percentage material_density : ℚ) : ℚ :=
  let volume_cm3 := volume_mm3 / 1000
  let shell_thickness : ℚ := 8 / 10
  let solid_layers_factor : ℚ := 15 / 100
  let shell_volume_percentage := shell_thickness / 10
  let effective_volume := (shell_volume_percentage + solid_layers_factor) * volume_cm3 +
    ((1 - shell_volume_percentage - solid_layers_factor) * volume_cm3 *
      (infill_percentage / 100))
  effective_volume * material_density

/-- A unit cube mesh: 8 vertices at the corners of [0,1]³ and 12 triangles,
consistently outward-wound. Used as the concrete mesh of the reference
scenarios. -/
def unitCube : IndexedMesh :=
  { vertices :=
      [⟨0, 0, 0⟩, ⟨1, 0, 0⟩, ⟨1, 1, 0⟩, ⟨0, 1, 0⟩,
       ⟨0, 0, 1⟩, ⟨1, 0, 1⟩, ⟨1, 1, 1⟩, ⟨0, 1, 1⟩],
    faces :=
      [⟨0, 2, 1⟩, ⟨0, 3, 2⟩,
       ⟨4, 5, 6⟩, ⟨4, 6, 7⟩,
       ⟨0, 1, 5⟩, ⟨0, 5, 4⟩,
       ⟨2, 3, 7⟩, ⟨2, 7, 6⟩,
       ⟨0, 4, 7⟩, ⟨0, 7, 3⟩,
       ⟨1, 2, 6⟩, ⟨1, 6, 5⟩] }

/-- The mesh obtained by replacing each face index triple `(i0, i1, i2)` by
`(i2, i1, i0)`: every face's winding order reversed. -/
def reverseWinding (m : IndexedMesh) : IndexedMesh :=
  ⟨m.vertices, m.faces.map (fun f => ⟨f.i2, f.i1, f.i0⟩)⟩

/-- Component-wise translation of one vertex by the offset `t`. -/
def translateV (t : Vertex) (v : Vertex) : Vertex :=
  ⟨v.x + t.x, v.y + t.y, v.z + t.z⟩

/-- The mesh with every vertex translated by the constant offset `t`. -/
def translateMesh (t : Vertex) (m : IndexedMesh) : IndexedMesh :=
  ⟨m.vertices.map (translateV t), m.faces⟩

/-- x-component of `v1 × v2 + v2 × v0 + v0 × v1` (twice the triangle's
vector area). -/
def crossSumX (v0 v1 v2 : Vertex) : ℚ :=
  (v1.y * v2.z - v1.z * v2.y) + (v2.y * v0.z - v2.z * v0.y) +
    (v0.y * v1.z - v0.z * v1.y)

/-- y-component of `v1 × v2 + v2 × v0 + v0 × v1`. -/
def crossSumY (v0 v1 v2 : Vertex) : ℚ :=
  (v1.z * v2.x - v1.x * v2.z) + (v2.z * v0.x - v2.x * v0.z) +
    (v0.z * v1.x - v0.x * v1.z)

/-- z-component of `v1 × v2 + v2 × v0 + v0 × v1`. -/
def crossSumZ (v0 v1 v2 : Vertex) : ℚ :=
  (v1.x * v2.y - v1.y * v2.x) + (v2.x * v0.y - v2.y * v0.x) +
    (v0.x * v1.y - v0.y * v1.x)

/-- The total vector area of the mesh surface is zero (componentwise).
This holds for every closed surface and is exactly the condition under
which the signed-tetrahedron sum is translation invariant. -/
def VectorAreaZero (m : IndexedMesh) : Prop :=
  (m.faces.map (fun f => crossSumX (getV m f.i0) (getV m f.i1) (getV m f.i2))).sum = 0 ∧
  (m.faces.map (fun f => crossSumY (getV m f.i0) (getV m f.i1) (getV m f.i2))).sum = 0 ∧
  (m.faces.map (fun f => crossSumZ (getV m f.i0) (getV m f.i1) (getV m f.i2))).sum = 0

/-- The mesh with one extra vertex appended at the end of the vertex list,
leaving the faces untouched. -/
def appendVertex (m : IndexedMesh) (v : Vertex) : IndexedMesh :=
  ⟨m.vertices ++ [v], m.faces⟩

/-- A single open triangle: not a closed surface, so its signed-volume sum
is origin dependent. -/
def openTri : IndexedMesh :=
  ⟨[⟨1, 0, 0⟩, ⟨0, 1, 0⟩, ⟨0, 0, 1⟩], [⟨0, 1, 2⟩]⟩

/-- Every vertex coordinate lies in the representable `f64` range
`[-fMAX, fMAX]`; true of every mesh the program can read, since STL
vertices are finite `f32` values cast to `f64`. -/
def CoordsBounded (m : IndexedMesh) : Prop :=
  ∀ v ∈ m.vertices, (-fMAX ≤ v.x ∧ v.x ≤ fMAX) ∧ (-fMAX ≤ v.y ∧ v.y ≤ fMAX) ∧
    (-fMAX ≤ v.z ∧ v.z ≤ fMAX)

/-- `b` records the component-wise minima and maxima over all vertices of
`m`: each bound is attained by some vertex and bounds every vertex. -/
def IsComponentwiseExtrema (m : IndexedMesh) (b : BBox) : Prop :=
  (b.minX ∈ m.vertices.map Vertex.x ∧ ∀ v ∈ m.vertices, b.minX ≤ v.x) ∧
  (b.maxX ∈ m.vertices.map Vertex.x ∧ ∀ v ∈ m.vertices, v.x ≤ b.maxX) ∧
  (b.minY ∈ m.vertices.map Vertex.y ∧ ∀ v ∈ m.vertices, b.minY ≤ v.y) ∧
  (b.maxY ∈ m.vertices.map Vertex.y ∧ ∀ v ∈ m.vertices, v.y ≤ b.maxY) ∧
  (b.minZ ∈ m.vertices.map Vertex.z ∧ ∀ v ∈ m.vertices, b.minZ ≤ v.z) ∧
  (b.maxZ ∈ m.vertices.map Vertex.z ∧ ∀ v ∈ m.vertices, v.z ≤ b.maxZ)

/-- `PLA_DENSITY` (src/main.rs line 8), in g/cm³. -/
def PLA_DENSITY : ℚ := 124 / 100

/-- `ABS_DENSITY` (src/main.rs line 9). -/
def ABS_DENSITY : ℚ := 104 / 100

/-- `PETG_DENSITY` (src/main.rs line 10). -/
def PETG_DENSITY : ℚ := 127 / 100

/-- `TPU_DENSITY` (src/main.rs line 11). -/
def TPU_DENSITY : ℚ := 121 / 100

/-- Material-name resolution shared by both paths (src/main.rs lines
115-122, src/api.rs lines 78-86): lowercase the name, then match it, with
PLA as the default for unknown or other names. -/
def materialDensity (material : String) : ℚ :=
  match material.toLower with
  | "abs" => ABS_DENSITY
  | "petg" => PETG_DENSITY
  | "tpu" => TPU_DENSITY
  | _ => PLA_DENSITY

/-- IEEE `f64` comparison `a < b` over the NaN-aware model `Option ℚ`
(`none` plays NaN): every comparison involving NaN is false. -/
def fLt : Option ℚ → Option ℚ → Bool
  | some a, some b => decide (a < b)
  | _, _ => false

/-- The infill range check `infill_percentage < 0.0 ||
infill_percentage > 100.0` shared by src/main.rs line 124 and
src/api.rs line 73 (Rust `a > b` is `b < a`). -/
def infillOutOfRange (i : Option ℚ) : Bool :=
  fLt i (some 0) || fLt (some 100) i

/-- `calculate_weight` lifted to the NaN-aware model: IEEE arithmetic
propagates NaN through every sum and product of the formula, and agrees
with the exact-arithmetic formula on finite inputs. -/
def calculate_weightF (v i d : Option ℚ) : Option ℚ :=
  match v, i, d with
  | some v, some i, some d => some (calculate_weight v i d)
  | _, _, _ => none

/-- The command-line path (src/main.rs lines 108-144) after argument
parsing and STL reading: resolve the material, validate the infill range
(rejecting with the CLI error message before any volume or weight
computation), then run the volume → scale → weight pipeline. -/
def cliRun (m : IndexedMesh) (xd yd zd : ℚ) (infill : Option ℚ)
    (material : String) : Except String (Option ℚ) :=
  let material_density := materialDensity material
  if infillOutOfRange infill then
    Except.error ("Infill percentage must be in the range of 0-100.")
  else
    let original_volume := calculate_volume m
    let scaled_volume := scale_volume original_volume xd yd zd m
    Except.ok (calculate_weightF (some scaled_volume) infill (some material_density))

/-- The HTTP upload path (src/api.rs lines 66-115) after the multipart
upload and STL parse succeed: validate the infill range (rejecting with a
BadRequest error before any volume or weight computation), resolve the
material, then run the same pipeline. -/
def httpRun (m : IndexedMesh) (xd yd zd : ℚ) (infill : Option ℚ)
    (material : String) : Except String (Option ℚ) :=
  if infillOutOfRange infill then
    Except.error ("Infill percentage must be in the range of 0-100")
  else
    let material_density := materialDensity material
    let original_volume := calculate_volume m
    let scaled_volume := scale_volume original_volume xd yd zd m
    Except.ok (calculate_weightF (some scaled_volume) infill (some material_density))

/-- The unit cube with one extra vertex, `(-1, 0, 0)`, that no face
references. -/
def cubePlus : IndexedMesh := appendVertex unitCube ⟨-1, 0, 0⟩


/-! ## General lemmas about the fold and sum shapes of the code -/

lemma foldl_add_map_sum {α : Type} (l : List α) (g : α → ℚ) (c : ℚ) :
    l.foldl (fun a x => a + g x) c = c + (l.map g).sum := by
  induction l generalizing c with
  | nil => simp
  | cons a t ih => simp [ih, add_assoc]

lemma calculate_volume_eq (m : IndexedMesh) :
    calculate_volume m =
      |(m.faces.map (fun f =>
        signedVol (getV m f.i0) (getV m f.i1) (getV m f.i2))).sum| := by
  unfold calculate_volume
  rw [foldl_add_map_sum]
  rw [zero_add]

lemma sum_map_neg_q {α : Type} (l : List α) (g : α → ℚ) :
    (l.map (fun x => -g x)).sum = -(l.map g).sum := by
  induction l with
  | nil => simp
  | cons a t ih => simp [ih]; ring

lemma sum_map_add_q {α : Type} (l : List α) (g h : α → ℚ) :
    (l.map (fun x => g x + h x)).sum = (l.map g).sum + (l.map h).sum := by
  induction l with
  | nil => simp
  | cons a t ih => simp [ih]; ring

lemma sum_map_mul_left_q {α : Type} (l : List α) (c : ℚ) (g : α → ℚ) :
    (l.map (fun x => c * g x)).sum = c * (l.map g).sum := by
  induction l with
  | nil => simp
  | cons a t ih => simp [ih]; ring

/-! ## Claims -/

/-- C1: for every mesh whose face indices are in bounds, `calculate_volume`
returns the absolute value of the sum, in face order, of
`(1/6)*(-v2x*v1y*v0z + v1x*v2y*v0z + v2x*v0y*v1z - v0x*v2y*v1z
- v1x*v0y*v2z + v0x*v1y*v2z)` over the faces; a mesh with zero faces
yields volume 0, and the result is always non-negative. -/
theorem calculate_volume_matches_spec_c1 (m : IndexedMesh)
    (hb : FacesInBounds m) :
    calculate_volume m =
      |(m.faces.map (fun f =>
          (1 / 6 : ℚ) *
            (-((getV m f.i2).x * (getV m f.i1).y * (getV m f.i0).z) +
              (getV m f.i1).x * (getV m f.i2).y * (getV m f.i0).z +
              (getV m f.i2).x * (getV m f.i0).y * (getV m f.i1).z -
              (getV m f.i0).x * (getV m f.i2).y * (getV m f.i1).z -
              (getV m f.i1).x * (getV m f.i0).y * (getV m f.i2).z +
              (getV m f.i0).x * (getV m f.i1).y * (getV m f.i2).z))).sum| ∧
    calculate_volume ⟨m.vertices, []⟩ = 0 ∧
    0 ≤ calculate_volume m := by
  refine ⟨?_, ?_, ?_⟩
  · rw [calculate_volume_eq]
    rfl
  · simp [calculate_volume]
  · rw [calculate_volume_eq]
    exact abs_nonneg _

/-- Witness for C1: the unit cube has in-bounds faces and satisfies the
specification equalities there. -/
theorem calculate_volume_matches_spec_c1_witness :
    FacesInBounds unitCube ∧
    (calculate_volume unitCube =
      |(unitCube.faces.map (fun f =>
          (1 / 6 : ℚ) *
            (-((getV unitCube f.i2).x * (getV unitCube f.i1).y * (getV unitCube f.i0).z) +
              (getV unitCube f.i1).x * (getV unitCube f.i2).y * (getV unitCube f.i0).z +
              (getV unitCube f.i2).x * (getV unitCube f.i0).y * (getV unitCube f.i1).z -
              (getV unitCube f.i0).x * (getV unitCube f.i2).y * (getV unitCube f.i1).z -
              (getV unitCube f.i1).x * (getV unitCube f.i0).y * (getV unitCube f.i2).z +
              (getV unitCube f.i0).x * (getV unitCube f.i1).y * (getV unitCube f.i2).z))).sum| ∧
    calculate_volume ⟨unitCube.vertices, []⟩ = 0 ∧
    0 ≤ calculate_volume unitCube) :=
  ⟨by decide, calculate_volume_matches_spec_c1 unitCube (by decide)⟩

/-- C2: for every volume, infill percentage and density, `calculate_weight`
returns `((0.08 + 0.15)*v/1000 + (1 - 0.08 - 0.15)*(v/1000)*(i/100))*d`;
in particular volume 1000 mm³, infill 20 and density 1.24 yield exactly
0.47616 g, within 0.0001 of the quoted 0.4762. -/
theorem calculate_weight_matches_spec_c2 (v i d : ℚ) :
    calculate_weight v i d =
      ((0.08 + 0.15) * (v / 1000) +
        (1 - 0.08 - 0.15) * (v / 1000) * (i / 100)) * d ∧
    calculate_weight 1000 20 (124 / 100) = 47616 / 100000 ∧
    |calculate_weight 1000 20 (124 / 100) - 4762 / 10000| ≤ 1 / 10000 := by
  refine ⟨?_, by norm_num [calculate_weight], by norm_num [calculate_weight, abs_le]⟩
  simp only [calculate_weight]
  norm_num

/-- C4: reversing the winding order of every face (replacing each index
triple `(i0, i1, i2)` by `(i2, i1, i0)`) leaves `calculate_volume`
unchanged. -/
theorem calculate_volume_reverse_winding_c4 (m : IndexedMesh) :
    calculate_volume (reverseWinding m) = calculate_volume m := by
  rw [calculate_volume_eq, calculate_volume_eq]
  rw [show (reverseWinding m).faces =
      m.faces.map (fun f => (⟨f.i2, f.i1, f.i0⟩ : Face)) from rfl]
  rw [List.map_map]
  have hfun : ((fun (f : Face) =>
          signedVol (getV (reverseWinding m) f.i0) (getV (reverseWinding m) f.i1)
            (getV (reverseWinding m) f.i2)) ∘
        (fun (f : Face) => (⟨f.i2, f.i1, f.i0⟩ : Face)))
      = fun (f : Face) => -(signedVol (getV m f.i0) (getV m f.i1) (getV m f.i2)) := by
    funext f
    simp only [Function.comp, signedVol, getV, reverseWinding]
    ring
  rw [hfun, sum_map_neg_q, abs_neg]

/-! ## Bounding-box fold lemmas for C3 and C6 -/

lemma foldl_min_le_init (l : List ℚ) (c : ℚ) : l.foldl min c ≤ c := by
  induction l generalizing c with
  | nil => exact le_refl c
  | cons a t ih => exact le_trans (ih (min c a)) (min_le_left c a)

lemma foldl_min_le_mem (l : List ℚ) (c : ℚ) : ∀ x ∈ l, l.foldl min c ≤ x := by
  induction l generalizing c with
  | nil => intro x hx; exact absurd hx (List.not_mem_nil x)
  | cons a t ih =>
    intro x hx
    rcases List.mem_cons.mp hx with h | h
    · subst h
      exact le_trans (foldl_min_le_init t (min c x)) (min_le_right c x)
    · exact ih (min c a) x h

lemma foldl_min_mem_or_init (l : List ℚ) (c : ℚ) :
    l.foldl min c ∈ l ∨ l.foldl min c = c := by
  induction l generalizing c with
  | nil => exact Or.inr rfl
  | cons a t ih =>
    rcases ih (min c a) with h | h
    · exact Or.inl (List.mem_cons_of_mem a h)
    · rcases le_total c a with hca | hac
      · right
        rw [show (a :: t).foldl min c = t.foldl min (min c a) from rfl, h,
          min_eq_left hca]
      · left
        rw [show (a :: t).foldl min c = t.foldl min (min c a) from rfl, h,
          min_eq_right hac]
        exact List.mem_cons_self a t

lemma foldl_min_mem (l : List ℚ) (c : ℚ) (hne : l ≠ [])
    (hbd : ∀ x ∈ l, x ≤ c) : l.foldl min c ∈ l := by
  rcases foldl_min_mem_or_init l c with h | h
  · exact h
  · obtain ⟨a, t, rfl⟩ := List.exists_cons_of_ne_nil hne
    have ha : a ∈ a :: t := List.mem_cons_self a t
    have h1 : (a :: t).foldl min c ≤ a := foldl_min_le_mem (a :: t) c a ha
    have h2 : a ≤ (a :: t).foldl min c := by rw [h]; exact hbd a ha
    rw [le_antisymm h1 h2]
    exact ha

lemma foldl_max_init_le (l : List ℚ) (c : ℚ) : c ≤ l.foldl max c := by
  induction l generalizing c with
  | nil => exact le_refl c
  | cons a t ih => exact le_trans (le_max_left c a) (ih (max c a))

lemma foldl_max_mem_le (l : List ℚ) (c : ℚ) : ∀ x ∈ l, x ≤ l.foldl max c := by
  induction l generalizing c with
  | nil => intro x hx; exact absurd hx (List.not_mem_nil x)
  | cons a t ih =>
    intro x hx
    rcases List.mem_cons.mp hx with h | h
    · subst h
      exact le_trans (le_max_right c x) (foldl_max_init_le t (max c x))
    · exact ih (max c a) x h

lemma foldl_max_mem_or_init (l : List ℚ) (c : ℚ) :
    l.foldl max c ∈ l ∨ l.foldl max c = c := by
  induction l generalizing c with
  | nil => exact Or.inr rfl
  | cons a t ih =>
    rcases ih (max c a) with h | h
    · exact Or.inl (List.mem_cons_of_mem a h)
    · rcases le_total a c with hac | hca
      · right
        rw [show (a :: t).foldl max c = t.foldl max (max c a) from rfl, h,
          max_eq_left hac]
      · left
        rw [show (a :: t).foldl max c = t.foldl max (max c a) from rfl, h,
          max_eq_right hca]
        exact List.mem_cons_self a t

lemma foldl_max_mem (l : List ℚ) (c : ℚ) (hne : l ≠ [])
    (hbd : ∀ x ∈ l, c ≤ x) : l.foldl max c ∈ l := by
  rcases foldl_max_mem_or_init l c with h | h
  · exact h
  · obtain ⟨a, t, rfl⟩ := List.exists_cons_of_ne_nil hne
    have ha : a ∈ a :: t := List.mem_cons_self a t
    have h1 : a ≤ (a :: t).foldl max c := foldl_max_mem_le (a :: t) c a ha
    have h2 : (a :: t).foldl max c ≤ a := by rw [h]; exact hbd a ha
    rw [le_antisymm h2 h1]
    exact ha

lemma bbox_foldl_minX (l : List Vertex) (b : BBox) :
    (l.foldl bboxStep b).minX = (l.map Vertex.x).foldl min b.minX := by
  induction l generalizing b with
  | nil => rfl
  | cons v t ih =>
    simp only [List.foldl_cons, List.map_cons]
    rw [ih]
    rfl

lemma bbox_foldl_minY (l : List Vertex) (b : BBox) :
    (l.foldl bboxStep b).minY = (l.map Vertex.y).foldl min b.minY := by
  induction l generalizing b with
  | nil => rfl
  | cons v t ih =>
    simp only [List.foldl_cons, List.map_cons]
    rw [ih]
    rfl

lemma bbox_foldl_minZ (l : List Vertex) (b : BBox) :
    (l.foldl bboxStep b).minZ = (l.map Vertex.z).foldl min b.minZ := by
  induction l generalizing b with
  | nil => rfl
  | cons v t ih =>
    simp only [List.foldl_cons, List.map_cons]
    rw [ih]
    rfl

lemma bbox_foldl_maxX (l : List Vertex) (b : BBox) :
    (l.foldl bboxStep b).maxX = (l.map Vertex.x).foldl max b.maxX := by
  induction l generalizing b with
  | nil => rfl
  | cons v t ih =>
    simp only [List.foldl_cons, List.map_cons]
    rw [ih]
    rfl

lemma bbox_foldl_maxY (l : List Vertex) (b : BBox) :
    (l.foldl bboxStep b).maxY = (l.map Vertex.y).foldl max b.maxY := by
  induction l generalizing b with
  | nil => rfl
  | cons v t ih =>
    simp only [List.foldl_cons, List.map_cons]
    rw [ih]
    rfl

lemma bbox_foldl_maxZ (l : List Vertex) (b : BBox) :
    (l.foldl bboxStep b).maxZ = (l.map Vertex.z).foldl max b.maxZ := by
  induction l generalizing b with
  | nil => rfl
  | cons v t ih =>
    simp only [List.foldl_cons, List.map_cons]
    rw [ih]
    rfl

lemma bbox_is_extrema (m : IndexedMesh) (hne : m.vertices ≠ [])
    (hbd : CoordsBounded m) : IsComponentwiseExtrema m (bbox m) := by
  have hmapne : ∀ g : Vertex → ℚ, m.vertices.map g ≠ [] := by
    intro g h
    exact hne (List.map_eq_nil_iff.mp h)
  refine ⟨⟨?_, ?_⟩, ⟨?_, ?_⟩, ⟨?_, ?_⟩, ⟨?_, ?_⟩, ⟨?_, ?_⟩, ⟨?_, ?_⟩⟩
  · rw [show (bbox m).minX = (m.vertices.map Vertex.x).foldl min fMAX from
      bbox_foldl_minX m.vertices _]
    refine foldl_min_mem _ _ (hmapne _) ?_
    intro x hx
    obtain ⟨v, hv, rfl⟩ := List.mem_map.mp hx
    exact ((hbd v hv).1).2
  · intro v hv
    rw [show (bbox m).minX = (m.vertices.map Vertex.x).foldl min fMAX from
      bbox_foldl_minX m.vertices _]
    exact foldl_min_le_mem _ _ _ (List.mem_map_of_mem Vertex.x hv)
  · rw [show (bbox m).maxX = (m.vertices.map Vertex.x).foldl max fMIN from
      bbox_foldl_maxX m.vertices _]
    refine foldl_max_mem _ _ (hmapne _) ?_
    intro x hx
    obtain ⟨v, hv, rfl⟩ := List.mem_map.mp hx
    exact ((hbd v hv).1).1
  · intro v hv
    rw [show (bbox m).maxX = (m.vertices.map Vertex.x).foldl max fMIN from
      bbox_foldl_maxX m.vertices _]
    exact foldl_max_mem_le _ _ _ (List.mem_map_of_mem Vertex.x hv)
  · rw [show (bbox m).minY = (m.vertices.map Vertex.y).foldl min fMAX from
      bbox_foldl_minY m.vertices _]
    refine foldl_min_mem _ _ (hmapne _) ?_
    intro x hx
    obtain ⟨v, hv, rfl⟩ := List.mem_map.mp hx
    exact ((hbd v hv).2.1).2
  · intro v hv
    rw [show (bbox m).minY = (m.vertices.map Vertex.y).foldl min fMAX from
      bbox_foldl_minY m.vertices _]
    exact foldl_min_le_mem _ _ _ (List.mem_map_of_mem Vertex.y hv)
  · rw [show (bbox m).maxY = (m.vertices.map Vertex.y).foldl max fMIN from
      bbox_foldl_maxY m.vertices _]
    refine foldl_max_mem _ _ (hmapne _) ?_
    intro x hx
    obtain ⟨v, hv, rfl⟩ := List.mem_map.mp hx
    exact ((hbd v hv).2.1).1
  · intro v hv
    rw [show (bbox m).maxY = (m.vertices.map Vertex.y).foldl max fMIN from
      bbox_foldl_maxY m.vertices _]
    exact foldl_max_mem_le _ _ _ (List.mem_map_of_mem Vertex.y hv)
  · rw [show (bbox m).minZ = (m.vertices.map Vertex.z).foldl min fMAX from
      bbox_foldl_minZ m.vertices _]
    refine foldl_min_mem _ _ (hmapne _) ?_
    intro x hx
    obtain ⟨v, hv, rfl⟩ := List.mem_map.mp hx
    exact ((hbd v hv).2.2).2
  · intro v hv
    rw [show (bbox m).minZ = (m.vertices.map Vertex.z).foldl min fMAX from
      bbox_foldl_minZ m.vertices _]
    exact foldl_min_le_mem _ _ _ (List.mem_map_of_mem Vertex.z hv)
  · rw [show (bbox m).maxZ = (m.vertices.map Vertex.z).foldl max fMIN from
      bbox_foldl_maxZ m.vertices _]
    refine foldl_max_mem _ _ (hmapne _) ?_
    intro x hx
    obtain ⟨v, hv, rfl⟩ := List.mem_map.mp hx
    exact ((hbd v hv).2.2).1
  · intro v hv
    rw [show (bbox m).maxZ = (m.vertices.map Vertex.z).foldl max fMIN from
      bbox_foldl_maxZ m.vertices _]
    exact foldl_max_mem_le _ _ _ (List.mem_map_of_mem Vertex.z hv)

/-- C3: for every mesh with at least one vertex, coordinates in the `f64`
range, and all bounding-box extents nonzero, `scale_volume` returns
`original_volume * (tx/(max_x-min_x)) * (ty/(max_y-min_y)) *
(tz/(max_z-min_z))` where the min/max are component-wise over all vertices
(the first conjunct characterises `bbox m` as exactly those extrema);
in particular scaling the unit cube to targets (10,10,10) yields 1000. -/
theorem scale_volume_matches_spec_c3 (m : IndexedMesh) (ov dx dy dz : ℚ)
    (hne : m.vertices ≠ []) (hbd : CoordsBounded m)
    (hcx : currentX m ≠ 0) (hcy : currentY m ≠ 0) (hcz : currentZ m ≠ 0) :
    IsComponentwiseExtrema m (bbox m) ∧
    scale_volume ov dx dy dz m =
      ov * (dx / ((bbox m).maxX - (bbox m).minX)) *
        (dy / ((bbox m).maxY - (bbox m).minY)) *
        (dz / ((bbox m).maxZ - (bbox m).minZ)) ∧
    scale_volume 1 10 10 10 unitCube = 1000 := by
  refine ⟨bbox_is_extrema m hne hbd, ?_, ?_⟩
  · simp only [scale_volume, currentX, currentY, currentZ]
    ring
  · norm_num [scale_volume, currentX, currentY, currentZ, bbox, bboxStep,
      unitCube, fMAX, fMIN]

/-- Witness for C3 at the unit cube with original volume 2 and targets
(20, 30, 40). -/
theorem scale_volume_matches_spec_c3_witness :
    unitCube.vertices ≠ [] ∧ CoordsBounded unitCube ∧
    currentX unitCube ≠ 0 ∧ currentY unitCube ≠ 0 ∧ currentZ unitCube ≠ 0 ∧
    (IsComponentwiseExtrema unitCube (bbox unitCube) ∧
     scale_volume 2 20 30 40 unitCube =
       2 * (20 / ((bbox unitCube).maxX - (bbox unitCube).minX)) *
         (30 / ((bbox unitCube).maxY - (bbox unitCube).minY)) *
         (40 / ((bbox unitCube).maxZ - (bbox unitCube).minZ)) ∧
     scale_volume 1 10 10 10 unitCube = 1000) :=
  ⟨by decide,
   by norm_num [CoordsBounded, unitCube, fMAX],
   by norm_num [currentX, bbox, bboxStep, unitCube, fMAX, fMIN],
   by norm_num [currentY, bbox, bboxStep, unitCube, fMAX, fMIN],
   by norm_num [currentZ, bbox, bboxStep, unitCube, fMAX, fMIN],
   scale_volume_matches_spec_c3 unitCube 2 20 30 40 (by decide)
     (by norm_num [CoordsBounded, unitCube, fMAX])
     (by norm_num [currentX, bbox, bboxStep, unitCube, fMAX, fMIN])
     (by norm_num [currentY, bbox, bboxStep, unitCube, fMAX, fMIN])
     (by norm_num [currentZ, bbox, bboxStep, unitCube, fMAX, fMIN])⟩

/-! ## Translation (C5) -/

lemma getV_translateMesh (t : Vertex) (m : IndexedMesh) (i : Nat)
    (h : i < m.vertices.length) :
    getV (translateMesh t m) i = translateV t (getV m i) := by
  simp only [getV, translateMesh]
  rw [List.getD_eq_getElem _ _ (by simpa using h), List.getD_eq_getElem _ _ h,
    List.getElem_map]

lemma signedVol_translate (t v0 v1 v2 : Vertex) :
    signedVol (translateV t v0) (translateV t v1) (translateV t v2) =
      signedVol v0 v1 v2 +
        ((1 : ℚ) / 6) * (t.x * crossSumX v0 v1 v2 + t.y * crossSumY v0 v1 v2 +
          t.z * crossSumZ v0 v1 v2) := by
  simp only [signedVol, translateV, crossSumX, crossSumY, crossSumZ]
  ring

lemma sum_map_affine (l : List Face) (c ax ay az : ℚ) (g gx gy gz : Face → ℚ) :
    (l.map (fun f => g f + c * (ax * gx f + ay * gy f + az * gz f))).sum =
      (l.map g).sum +
        c * (ax * (l.map gx).sum + ay * (l.map gy).sum + az * (l.map gz).sum) := by
  induction l with
  | nil => simp
  | cons f t ih =>
    simp only [List.map_cons, List.sum_cons, ih]
    ring

/-- C5 counterexample: for the single open triangle with vertices (1,0,0),
(0,1,0), (0,0,1), translating every vertex by (1,0,0) changes
`calculate_volume` from 1/6 to 1/3, refuting the claim for arbitrary
meshes even over exact real arithmetic. -/
theorem translation_changes_volume_c5_counterexample :
    calculate_volume (translateMesh ⟨1, 0, 0⟩ openTri) ≠ calculate_volume openTri := by
  norm_num [calculate_volume, signedVol, getV, translateMesh, translateV, openTri,
    abs_eq_abs]

/-- C5 (amended): for every mesh whose face indices are in bounds and whose
total vector area is zero — as holds for any closed, consistently wound
surface — translating every vertex by one arbitrary constant offset leaves
`calculate_volume` unchanged (exactly, over exact arithmetic). -/
theorem calculate_volume_translation_invariant_c5 (m : IndexedMesh) (t : Vertex)
    (hb : FacesInBounds m) (hc : VectorAreaZero m) :
    calculate_volume (translateMesh t m) = calculate_volume m := by
  rw [calculate_volume_eq, calculate_volume_eq]
  rw [show (translateMesh t m).faces = m.faces from rfl]
  have hcong : ∀ f ∈ m.faces,
      signedVol (getV (translateMesh t m) f.i0) (getV (translateMesh t m) f.i1)
          (getV (translateMesh t m) f.i2) =
        signedVol (getV m f.i0) (getV m f.i1) (getV m f.i2) +
          ((1 : ℚ) / 6) *
            (t.x * crossSumX (getV m f.i0) (getV m f.i1) (getV m f.i2) +
             t.y * crossSumY (getV m f.i0) (getV m f.i1) (getV m f.i2) +
             t.z * crossSumZ (getV m f.i0) (getV m f.i1) (getV m f.i2)) := by
    intro f hf
    obtain ⟨h0, h1, h2⟩ := hb f hf
    rw [getV_translateMesh t m f.i0 h0, getV_translateMesh t m f.i1 h1,
      getV_translateMesh t m f.i2 h2, signedVol_translate]
  rw [List.map_congr_left hcong, sum_map_affine, hc.1, hc.2.1, hc.2.2]
  ring_nf

/-- Witness for C5 (amended): the closed unit cube translated by (1,2,3)
keeps its volume. -/
theorem calculate_volume_translation_invariant_c5_witness :
    FacesInBounds unitCube ∧ VectorAreaZero unitCube ∧
    calculate_volume (translateMesh ⟨1, 2, 3⟩ unitCube) = calculate_volume unitCube :=
  ⟨by decide,
   by norm_num [VectorAreaZero, crossSumX, crossSumY, crossSumZ, getV, unitCube],
   calculate_volume_translation_invariant_c5 unitCube ⟨1, 2, 3⟩ (by decide)
     (by norm_num [VectorAreaZero, crossSumX, crossSumY, crossSumZ, getV, unitCube])⟩

/-! ## Scale monotonicity (C6) -/

/-- C6 counterexample: with original volume 0 the claim's side condition
(positive extent along the increased axis) holds on the unit cube, the
x-target increases from 1 to 2, yet the returned scaled volume does not
strictly increase (both results are 0). -/
theorem scale_volume_mono_c6_counterexample :
    0 < currentX unitCube ∧ (1 : ℚ) < 2 ∧
    ¬ scale_volume 0 1 1 1 unitCube < scale_volume 0 2 1 1 unitCube := by
  norm_num [scale_volume, currentX, currentY, currentZ, bbox, bboxStep,
    unitCube, fMAX, fMIN]

/-- C6 (amended): for a fixed mesh, a positive original volume, positive
bounding-box extents, and positive targets on the unchanged axes,
increasing any single target dimension strictly increases
`scale_volume`. -/
theorem scale_volume_strict_mono_c6 (m : IndexedMesh)
    (ov dx dy dz dx' dy' dz' : ℚ) (hov : 0 < ov) (hcx : 0 < currentX m)
    (hcy : 0 < currentY m) (hcz : 0 < currentZ m) :
    (dx < dx' → 0 < dy → 0 < dz →
      scale_volume ov dx dy dz m < scale_volume ov dx' dy dz m) ∧
    (dy < dy' → 0 < dx → 0 < dz →
      scale_volume ov dx dy dz m < scale_volume ov dx dy' dz m) ∧
    (dz < dz' → 0 < dx → 0 < dy →
      scale_volume ov dx dy dz m < scale_volume ov dx dy dz' m) := by
  refine ⟨?_, ?_, ?_⟩
  · intro hlt hdy hdz
    have hK : 0 < ov / currentX m * (dy / currentY m) * (dz / currentZ m) :=
      mul_pos (mul_pos (div_pos hov hcx) (div_pos hdy hcy)) (div_pos hdz hcz)
    have e : ∀ d, scale_volume ov d dy dz m =
        d * (ov / currentX m * (dy / currentY m) * (dz / currentZ m)) := by
      intro d
      simp only [scale_volume]
      ring
    rw [e dx, e dx']
    exact mul_lt_mul_of_pos_right hlt hK
  · intro hlt hdx hdz
    have hK : 0 < ov / currentY m * (dx / currentX m) * (dz / currentZ m) :=
      mul_pos (mul_pos (div_pos hov hcy) (div_pos hdx hcx)) (div_pos hdz hcz)
    have e : ∀ d, scale_volume ov dx d dz m =
        d * (ov / currentY m * (dx / currentX m) * (dz / currentZ m)) := by
      intro d
      simp only [scale_volume]
      ring
    rw [e dy, e dy']
    exact mul_lt_mul_of_pos_right hlt hK
  · intro hlt hdx hdy
    have hK : 0 < ov / currentZ m * (dx / currentX m) * (dy / currentY m) :=
      mul_pos (mul_pos (div_pos hov hcz) (div_pos hdx hcx)) (div_pos hdy hcy)
    have e : ∀ d, scale_volume ov dx dy d m =
        d * (ov / currentZ m * (dx / currentX m) * (dy / currentY m)) := by
      intro d
      simp only [scale_volume]
      ring
    rw [e dz, e dz']
    exact mul_lt_mul_of_pos_right hlt hK

/-- Witness for C6 (amended) on the unit cube: raising the x-target from
1 to 2 with volume 1 and the other targets 3 and 4 strictly increases the
result. -/
theorem scale_volume_strict_mono_c6_witness :
    0 < (1 : ℚ) ∧ 0 < currentX unitCube ∧ 0 < currentY unitCube ∧
    0 < currentZ unitCube ∧ (1 : ℚ) < 2 ∧ 0 < (3 : ℚ) ∧ 0 < (4 : ℚ) ∧
    scale_volume 1 1 3 4 unitCube < scale_volume 1 2 3 4 unitCube :=
  ⟨by norm_num,
   by norm_num [currentX, bbox, bboxStep, unitCube, fMAX, fMIN],
   by norm_num [currentY, bbox, bboxStep, unitCube, fMAX, fMIN],
   by norm_num [currentZ, bbox, bboxStep, unitCube, fMAX, fMIN],
   by norm_num, by norm_num, by norm_num,
   (scale_volume_strict_mono_c6 unitCube 1 1 3 4 2 0 0 (by norm_num)
     (by norm_num [currentX, bbox, bboxStep, unitCube, fMAX, fMIN])
     (by norm_num [currentY, bbox, bboxStep, unitCube, fMAX, fMIN])
     (by norm_num [currentZ, bbox, bboxStep, unitCube, fMAX, fMIN])).1
     (by norm_num) (by norm_num) (by norm_num)⟩

/-! ## Weight monotonicity (C7) -/

/-- C7 counterexample: at the fixed volume -1000 mm³ and PLA density 1.24,
raising the infill percentage from 20 to 30 strictly decreases
`calculate_weight`, so the function is not non-decreasing in infill for
every fixed volume and density. -/
theorem calculate_weight_mono_c7_counterexample :
    (20 : ℚ) < 30 ∧
    calculate_weight (-1000) 30 (124 / 100) < calculate_weight (-1000) 20 (124 / 100) := by
  norm_num [calculate_weight]

/-- C7 (amended): for fixed non-negative volume and density,
`calculate_weight` is non-decreasing in the infill percentage; for fixed
positive volume and density it is strictly increasing as the infill
percentage ranges over (0,100) (the fixed solid fraction 0.08 + 0.15
being less than 1). -/
theorem calculate_weight_infill_mono_c7 (v d i1 i2 : ℚ) :
    (0 ≤ v → 0 ≤ d → i1 ≤ i2 →
      calculate_weight v i1 d ≤ calculate_weight v i2 d) ∧
    (0 < v → 0 < d → 0 < i1 → i1 < i2 → i2 < 100 →
      calculate_weight v i1 d < calculate_weight v i2 d) := by
  have he : ∀ i, calculate_weight v i d =
      23 * v * d / 100000 + 77 * v * i * d / 10000000 := by
    intro i
    simp only [calculate_weight]
    ring
  constructor
  · intro hv hd hi
    rw [he i1, he i2]
    nlinarith [mul_nonneg (mul_nonneg hv hd) (sub_nonneg.mpr hi)]
  · intro hv hd _ hi _
    rw [he i1, he i2]
    nlinarith [mul_pos (mul_pos hv hd) (sub_pos.mpr hi)]

/-- Witness for C7 (amended) at volume 1000 mm³, PLA density 1.24, infill
20 vs 30. -/
theorem calculate_weight_infill_mono_c7_witness :
    ((0 : ℚ) ≤ 1000 ∧ (0 : ℚ) ≤ 124 / 100 ∧ (20 : ℚ) ≤ 30 ∧
      calculate_weight 1000 20 (124 / 100) ≤ calculate_weight 1000 30 (124 / 100)) ∧
    ((0 : ℚ) < 1000 ∧ (0 : ℚ) < 124 / 100 ∧ (0 : ℚ) < 20 ∧ (20 : ℚ) < 30 ∧
      (30 : ℚ) < 100 ∧
      calculate_weight 1000 20 (124 / 100) < calculate_weight 1000 30 (124 / 100)) :=
  ⟨⟨by norm_num, by norm_num, by norm_num,
    (calculate_weight_infill_mono_c7 1000 (124 / 100) 20 30).1 (by norm_num)
      (by norm_num) (by norm_num)⟩,
   ⟨by norm_num, by norm_num, by norm_num, by norm_num, by norm_num,
    (calculate_weight_infill_mono_c7 1000 (124 / 100) 20 30).2 (by norm_num)
      (by norm_num) (by norm_num) (by norm_num) (by norm_num)⟩⟩

/-! ## Infill validation in both call paths (C8, C9) -/

/-- C8: in both the command-line path and the HTTP upload path, every
infill percentage in [0,100] — in particular exactly 0 and exactly 100 —
is accepted and the pipeline weight is computed, while every infill
percentage strictly below 0 or strictly above 100 is rejected with the
path's distinct error response and no weight value is produced. -/
theorem infill_validation_c8 (m : IndexedMesh) (xd yd zd q : ℚ)
    (material : String) :
    (0 ≤ q → q ≤ 100 →
      cliRun m xd yd zd (some q) material =
        Except.ok (some (calculate_weight
          (scale_volume (calculate_volume m) xd yd zd m) q
          (materialDensity material))) ∧
      httpRun m xd yd zd (some q) material =
        Except.ok (some (calculate_weight
          (scale_volume (calculate_volume m) xd yd zd m) q
          (materialDensity material)))) ∧
    ((q < 0 ∨ 100 < q) →
      cliRun m xd yd zd (some q) material =
        Except.error ("Infill percentage must be in the range of 0-100.") ∧
      httpRun m xd yd zd (some q) material =
        Except.error ("Infill percentage must be in the range of 0-100")) := by
  constructor
  · intro h0 h100
    have hr : infillOutOfRange (some q) = false := by
      simp only [infillOutOfRange, fLt, Bool.or_eq_false_iff,
        decide_eq_false_iff_not, not_lt]
      exact ⟨h0, h100⟩
    constructor
    · simp [cliRun, hr, calculate_weightF]
    · simp [httpRun, hr, calculate_weightF]
  · intro h
    have hr : infillOutOfRange (some q) = true := by
      simp only [infillOutOfRange, fLt, Bool.or_eq_true, decide_eq_true_eq]
      exact h
    constructor
    · simp [cliRun, hr]
    · simp [httpRun, hr]

/-- Witness for C8: on the unit cube with targets (10,10,10) and PLA,
infill 0 is accepted with a computed weight and infill 150 is rejected
with the two error responses. -/
theorem infill_validation_c8_witness :
    ((0 : ℚ) ≤ 0 ∧ (0 : ℚ) ≤ 100 ∧
      cliRun unitCube 10 10 10 (some 0) ("pla") =
        Except.ok (some (calculate_weight
          (scale_volume (calculate_volume unitCube) 10 10 10 unitCube) 0
          (materialDensity "pla"))) ∧
      httpRun unitCube 10 10 10 (some 0) ("pla") =
        Except.ok (some (calculate_weight
          (scale_volume (calculate_volume unitCube) 10 10 10 unitCube) 0
          (materialDensity "pla")))) ∧
    (((150 : ℚ) < 0 ∨ (100 : ℚ) < 150) ∧
      cliRun unitCube 10 10 10 (some 150) ("pla") =
        Except.error ("Infill percentage must be in the range of 0-100.") ∧
      httpRun unitCube 10 10 10 (some 150) ("pla") =
        Except.error ("Infill percentage must be in the range of 0-100")) :=
  ⟨⟨by norm_num, by norm_num,
    (infill_validation_c8 unitCube 10 10 10 0 "pla").1 (by norm_num) (by norm_num)⟩,
   ⟨Or.inr (by norm_num),
    (infill_validation_c8 unitCube 10 10 10 150 "pla").2 (Or.inr (by norm_num))⟩⟩

/-- C9: the infill validation of both paths accepts a NaN infill
percentage — `infill < 0.0` and `infill > 100.0` are both false for NaN —
so the pipeline proceeds and produces a NaN weight instead of a
rejection. -/
theorem nan_infill_accepted_c9 (m : IndexedMesh) (xd yd zd : ℚ)
    (material : String) :
    infillOutOfRange none = false ∧
    cliRun m xd yd zd none material = Except.ok none ∧
    httpRun m xd yd zd none material = Except.ok none := by
  refine ⟨rfl, ?_, ?_⟩
  · simp [cliRun, infillOutOfRange, fLt, calculate_weightF]
  · simp [httpRun, infillOutOfRange, fLt, calculate_weightF]

/-! ## Volume depends only on referenced vertices (C10) -/

/-- C10: appending to the vertex list a vertex that no face references
leaves `calculate_volume` unchanged (for any mesh whose faces are in
bounds of the original vertex list), even though `scale_volume`'s
bounding box ranges over all vertices: concretely, appending (-1,0,0)
to the unit cube changes `scale_volume 1 10 10 10` from 1000 to 500. -/
theorem volume_ignores_unreferenced_vertex_c10 (m : IndexedMesh) (v : Vertex)
    (hb : FacesInBounds m) :
    calculate_volume (appendVertex m v) = calculate_volume m ∧
    scale_volume 1 10 10 10 cubePlus ≠ scale_volume 1 10 10 10 unitCube := by
  constructor
  · rw [calculate_volume_eq, calculate_volume_eq]
    rw [show (appendVertex m v).faces = m.faces from rfl]
    have hget : ∀ i, i < m.vertices.length → getV (appendVertex m v) i = getV m i := by
      intro i hi
      simp only [getV, appendVertex]
      exact List.getD_append _ _ _ _ hi
    have hcong : ∀ f ∈ m.faces,
        signedVol (getV (appendVertex m v) f.i0) (getV (appendVertex m v) f.i1)
            (getV (appendVertex m v) f.i2) =
          signedVol (getV m f.i0) (getV m f.i1) (getV m f.i2) := by
      intro f hf
      obtain ⟨h0, h1, h2⟩ := hb f hf
      rw [hget f.i0 h0, hget f.i1 h1, hget f.i2 h2]
    rw [List.map_congr_left hcong]
  · norm_num [scale_volume, currentX, currentY, currentZ, bbox, bboxStep,
      cubePlus, appendVertex, unitCube, fMAX, fMIN]

/-- Witness for C10: the unit cube with vertex (5,5,5) appended keeps its
volume. -/
theorem volume_ignores_unreferenced_vertex_c10_witness :
    FacesInBounds unitCube ∧
    (calculate_volume (appendVertex unitCube ⟨5, 5, 5⟩) = calculate_volume unitCube ∧
     scale_volume 1 10 10 10 cubePlus ≠ scale_volume 1 10 10 10 unitCube) :=
  ⟨by decide, volume_ignores_unreferenced_vertex_c10 unitCube ⟨5, 5, 5⟩ (by decide)⟩
